import Mathlib

/-!
Verification of the scarab-engine simulation core.

The repository slice under `src/` contains only the crate root (module
declarations) and the example application `scarab-example/src/main.rs`,
which is a caller of the engine.  The engine components themselves
(geometry primitive, field, movement/collision resolver, camera, scene,
persistence boundary) are therefore modelled from the specification
(spec.md sections 3, 4, 7, 8), as shallow Lean definitions.  Floating
point (`f64`) is idealised as the real numbers, so every "modulo
floating-point rounding" guarantee is proved exactly; the non-finite
(NaN, infinity) inputs mentioned by the spec have no counterpart in this
idealisation.
-/

namespace Scarab

/-- Modelled from the spec: error kinds of section 7 of the design.  The
engine's own `error` module is not part of the visible slice. -/
inductive ScarabError where
  | invalidGeometry
  | emptyField
  | invalidViewport
  | duplicateOrInvalidActor
  | degenerateOverlap
  | ioOrDecodeError
  | incompatibleSaveVersion
deriving DecidableEq

/-- Modelled from the spec: the geometry primitive `GeometryBox` (called
`PhysBox` at the example call sites), an axis-aligned box given by the
top-left corner `pos` and the extent `size` (spec section 3). -/
structure PhysBox where
  pos : ℝ × ℝ
  size : ℝ × ℝ

def PhysBox.minX (b : PhysBox) : ℝ := b.pos.1

def PhysBox.maxX (b : PhysBox) : ℝ := b.pos.1 + b.size.1

def PhysBox.minY (b : PhysBox) : ℝ := b.pos.2

def PhysBox.maxY (b : PhysBox) : ℝ := b.pos.2 + b.size.2

/-- Modelled from the spec: fallible construction of a `GeometryBox`
(spec section 4.1): fails with `InvalidGeometry` when either size
component is not strictly positive (the spec's additional "non-finite"
case has no counterpart in the real-number idealisation). -/
noncomputable def PhysBox.new (x y w h : ℝ) : Except ScarabError PhysBox :=
  if 0 < w ∧ 0 < h then .ok ⟨(x, y), (w, h)⟩ else .error .invalidGeometry

/-- Modelled from the spec: the standard strict AABB overlap test of
spec section 4.1. -/
def PhysBox.intersects (a b : PhysBox) : Prop :=
  a.minX < b.maxX ∧ a.maxX > b.minX ∧ a.minY < b.maxY ∧ a.maxY > b.minY

noncomputable instance (a b : PhysBox) : Decidable (a.intersects b) := by
  unfold PhysBox.intersects
  infer_instance

/-- Modelled from the spec: `translate` of spec section 4.1. -/
def PhysBox.translate (b : PhysBox) (d : ℝ × ℝ) : PhysBox :=
  { b with pos := (b.pos.1 + d.1, b.pos.2 + d.2) }

/-- Modelled from the spec: updating the position of an owning entity's
box; total, every position is accepted (spec section 3: position and
size can each be updated independently; only size is constrained). -/
def PhysBox.setPos (b : PhysBox) (p : ℝ × ℝ) : PhysBox :=
  { b with pos := p }

/-- Modelled from the spec: updating the size of an owning entity's box,
`resize` of spec section 4.1; fails with `InvalidGeometry` when either
new size component is not strictly positive. -/
noncomputable def PhysBox.setSize (b : PhysBox) (s : ℝ × ℝ) : Except ScarabError PhysBox :=
  if 0 < s.1 ∧ 0 < s.2 then .ok { b with size := s } else .error .invalidGeometry

/-- Swap of the two axes of a box; the y-axis pass of the resolver is
the x-axis pass on transposed geometry. -/
def PhysBox.transpose (b : PhysBox) : PhysBox :=
  ⟨(b.pos.2, b.pos.1), (b.size.2, b.size.1)⟩

/-- Containment of the extent of one box in the extent of another, used
to relate a resolved box to the extent swept during its tick. -/
def within (i o : PhysBox) : Prop :=
  o.minX ≤ i.minX ∧ i.maxX ≤ o.maxX ∧ o.minY ≤ i.minY ∧ i.maxY ≤ o.maxY

/-- Modelled from the spec: the `Solidity` traversability classification
(spec section 3); the example uses the constants `SOLID` and
`NO_SOLIDITY`. -/
inductive Solidity where
  | solid
  | noSolidity
deriving DecidableEq

/-- Modelled from the spec: a `Cell`, a geometry box tagged with a
solidity classification (spec section 3). -/
structure Cell where
  solidity : Solidity
  box : PhysBox

/-- Modelled from the spec: `Cell` construction pairs an already
validated box with a solidity tag; it is total (the example calls it
outside of any error propagation, and spec section 7 lists no error
kind for it). -/
def Cell.new (s : Solidity) (b : PhysBox) : Cell := ⟨s, b⟩

def Cell.transpose (c : Cell) : Cell := ⟨c.solidity, c.box.transpose⟩

/-- Modelled from the spec: the `Field`, an ordered sequence of cells
(spec section 3). -/
structure Field where
  cells : List Cell

/-- Modelled from the spec: `Field::new` fails with `EmptyField` on an
empty cell list (spec section 4.2). -/
def Field.new (cs : List Cell) : Except ScarabError Field :=
  match cs with
  | [] => .error .emptyField
  | _ => .ok ⟨cs⟩

def Field.transpose (f : Field) : Field := ⟨f.cells.map Cell.transpose⟩

/-- Modelled from the spec: `solid_cells_overlapping` of spec section
4.2, the linear scan keeping the cells that are solid and whose box
intersects the query box, in field storage order. -/
noncomputable def Field.solidCellsOverlapping (f : Field) (q : PhysBox) : List Cell :=
  f.cells.filter (fun c => decide (c.solidity = Solidity.solid ∧ c.box.intersects q))

/-- Extent swept by a box translated along the x axis by `dx`: the
union of the start box and the candidate box. -/
noncomputable def sweptX (b : PhysBox) (dx : ℝ) : PhysBox :=
  ⟨(min b.pos.1 (b.pos.1 + dx), b.pos.2), (b.size.1 + |dx|, b.size.2)⟩

/-- Extent swept by a box translated along the y axis by `dy`. -/
noncomputable def sweptY (b : PhysBox) (dy : ℝ) : PhysBox :=
  ⟨(b.pos.1, min b.pos.2 (b.pos.2 + dy)), (b.size.1, b.size.2 + |dy|)⟩

/-- Modelled from the spec: the admissible x displacement against one
blocking cell `c` (spec section 4.3 step 3d): moving toward a cell that
is ahead stops flush against its near edge; a cell already overlapped
at tick start is exited flush past its far edge (the worked example of
spec section 8 with the solid cell at `[0,0,50,100]`). -/
noncomputable def allowX (b : PhysBox) (c : PhysBox) (dx : ℝ) : ℝ :=
  if 0 < dx then
    if b.maxX ≤ c.minX then c.minX - b.maxX else c.maxX - b.minX
  else
    if c.maxX ≤ b.minX then c.maxX - b.minX else c.minX - b.maxX

/-- Modelled from the spec: one axis pass of the resolver (spec section
4.3 steps 3a-3d) along x.  The query uses the extent swept across the
displacement, so that the no-tunneling guarantee of spec sections 1 and
8 holds for arbitrarily large displacements (a thin wall strictly
between the start and candidate boxes still blocks); with no blocking
cell the full delta is committed, otherwise the delta is clamped to the
admissible displacement of the nearest blocking cell in scan order. -/
noncomputable def resolveAxisX (f : Field) (b : PhysBox) (dx : ℝ) : ℝ :=
  if dx = 0 then 0
  else
    let blocking := f.solidCellsOverlapping (sweptX b dx)
    if 0 < dx then blocking.foldr (fun c acc => min (allowX b c.box dx) acc) dx
    else blocking.foldr (fun c acc => max (allowX b c.box dx) acc) dx

/-- Modelled from the spec: the y axis pass, the x axis pass on
transposed geometry (spec section 4.3 treats the axes symmetrically). -/
noncomputable def resolveAxisY (f : Field) (b : PhysBox) (dy : ℝ) : ℝ :=
  resolveAxisX f.transpose b.transpose dy

/-- Modelled from the spec: axis-separated resolution of one tick's
displacement `velocity * dt` (spec section 4.3 steps 2-4): x is resolved
first from the start box, then y from the x-resolved box; a clamped axis
zeroes that component of the residual velocity for the tick. -/
noncomputable def resolveMove (f : Field) (b : PhysBox) (v : ℝ × ℝ) (dt : ℝ) :
    PhysBox × (ℝ × ℝ) :=
  let dx := v.1 * dt
  let rdx := resolveAxisX f b dx
  let b1 := b.translate (rdx, 0)
  let dy := v.2 * dt
  let rdy := resolveAxisY f b1 dy
  (b1.translate (0, rdy), (if rdx = dx then v.1 else 0, if rdy = dy then v.2 else 0))

/-- Euclidean magnitude of a velocity vector. -/
noncomputable def mag (v : ℝ × ℝ) : ℝ := Real.sqrt (v.1 ^ 2 + v.2 ^ 2)

/-- Modelled from the spec: the resolver's velocity clamp (spec section
4.3 step 1): scale the vector down proportionally to magnitude
`max_speed` when it exceeds it, never changing its direction. -/
noncomputable def clampVelocity (v : ℝ × ℝ) (m : ℝ) : ℝ × ℝ :=
  if mag v ≤ m then v else (m / mag v * v.1, m / mag v * v.2)

/-- Modelled from the spec: the kind-specific payload of an actor.  The
example registers `Player` actors (built with two scalar parameters)
and `Enemy` actors (spec section 9: a closed set of variants carrying
kind-specific payload). -/
inductive ActorKind where
  | player (a b : ℝ)
  | enemy

/-- Modelled from the spec: an `Actor` (called `Entity` at the example
call sites): box, velocity, maximum speed and kind-specific state (spec
section 3). -/
structure Actor where
  box : PhysBox
  velocity : ℝ × ℝ
  maxSpeed : ℝ
  kind : ActorKind

/-- Modelled from the spec: one tick of one actor against the field
(spec section 4.3): clamp the velocity, then run the axis-separated
resolution and store the resolved box and residual velocity. -/
noncomputable def Actor.update (f : Field) (a : Actor) (dt : ℝ) : Actor :=
  let v := clampVelocity a.velocity a.maxSpeed
  let r := resolveMove f a.box v dt
  { a with box := r.1, velocity := r.2 }

/-- Modelled from the spec: the `Scene` composition root (spec section
3): the field, the registry of actors keyed by stable `ActorId`, and
the monotonically issued next identifier. -/
structure Scene where
  field : Field
  actors : List (ℕ × Actor)
  nextId : ℕ

/-- Modelled from the spec: `Scene::update(dt)` (spec section 4.5) runs
the resolver for every registered actor against the field, in
registration order. -/
noncomputable def Scene.update (s : Scene) (dt : ℝ) : Scene :=
  { s with actors := s.actors.map (fun ia => (ia.1, Actor.update s.field ia.2 dt)) }

/-- Modelled from the spec: the `Camera` (spec section 3): a world-space
view box and the viewport pixel dimensions (`u32` components, modelled
as naturals). -/
structure Camera where
  viewBox : PhysBox
  viewportSize : ℕ × ℕ

/-- Modelled from the spec: `Camera::new` (spec section 4.4): the
viewport components must be strictly positive or construction fails
with `InvalidViewport`. -/
def Camera.new (vb : PhysBox) (sz : ℕ × ℕ) : Except ScarabError Camera :=
  if 0 < sz.1 ∧ 0 < sz.2 then .ok ⟨vb, sz⟩ else .error .invalidViewport

/-- Per-axis scale factor of the camera, `viewport_size / view_box.size`
(spec section 3). -/
noncomputable def Camera.scaleX (c : Camera) : ℝ := (c.viewportSize.1 : ℝ) / c.viewBox.size.1

noncomputable def Camera.scaleY (c : Camera) : ℝ := (c.viewportSize.2 : ℝ) / c.viewBox.size.2

/-- Modelled from the spec: `world_to_screen` (spec section 4.4):
`(point - view_box.position) * scale` per axis. -/
noncomputable def Camera.worldToScreen (c : Camera) (p : ℝ × ℝ) : ℝ × ℝ :=
  ((p.1 - c.viewBox.pos.1) * c.scaleX, (p.2 - c.viewBox.pos.2) * c.scaleY)

/-- Modelled from the spec: `screen_to_world` (spec section 4.4), the
exact inverse transform. -/
noncomputable def Camera.screenToWorld (c : Camera) (q : ℝ × ℝ) : ℝ × ℝ :=
  (q.1 / c.scaleX + c.viewBox.pos.1, q.2 / c.scaleY + c.viewBox.pos.2)

/-- Modelled from the spec: `resize_viewport` (spec section 4.4):
updates the viewport size and leaves the view box unchanged. -/
def Camera.resizeViewport (c : Camera) (sz : ℕ × ℕ) : Camera :=
  { c with viewportSize := sz }

/-- Modelled from the spec: `set_view` (spec section 4.4): replaces the
visible world rectangle. -/
def Camera.setView (c : Camera) (vb : PhysBox) : Camera :=
  { c with viewBox := vb }

/-- Modelled from the spec: one primitive token of the save encoding.
The on-disk encoding of the persistence boundary (spec section 4.6) is
implementation-defined; it is modelled as a self-describing token
stream carrying naturals (counts, identifiers, version, viewport),
scalars and solidity tags. -/
inductive Tok where
  | n : ℕ → Tok
  | r : ℝ → Tok
  | sol : Solidity → Tok

def encBox (b : PhysBox) : List Tok :=
  [.r b.pos.1, .r b.pos.2, .r b.size.1, .r b.size.2]

def decBox : List Tok → Option (PhysBox × List Tok)
  | .r x :: .r y :: .r w :: .r h :: rest => some (⟨(x, y), (w, h)⟩, rest)
  | _ => none

def encCell (c : Cell) : List Tok := .sol c.solidity :: encBox c.box

def decCell : List Tok → Option (Cell × List Tok)
  | .sol s :: rest =>
    match decBox rest with
    | some (b, rest1) => some (⟨s, b⟩, rest1)
    | none => none
  | _ => none

/-- Concatenated encoding of a list of items, written with a length
prefix by the callers. -/
def encListBody {α : Type} (enc : α → List Tok) : List α → List Tok
  | [] => []
  | x :: xs => enc x ++ encListBody enc xs

/-- Decoding of a known number of consecutive items. -/
def decListBody {α : Type} (dec : List Tok → Option (α × List Tok)) :
    ℕ → List Tok → Option (List α × List Tok)
  | 0, ts => some ([], ts)
  | k + 1, ts =>
    match dec ts with
    | some (x, ts1) =>
      match decListBody dec k ts1 with
      | some (xs, ts2) => some (x :: xs, ts2)
      | none => none
    | none => none

def encKind : ActorKind → List Tok
  | .player a b => [.n 0, .r a, .r b]
  | .enemy => [.n 1]

def decKind : List Tok → Option (ActorKind × List Tok)
  | .n 0 :: .r a :: .r b :: rest => some (.player a b, rest)
  | .n 1 :: rest => some (.enemy, rest)
  | _ => none

/-- Encoding of one registry entry: the stable actor identifier, the
box, the velocity, the maximum speed and the kind-specific state (spec
section 4.6: kind discriminant and kind-specific state included). -/
def encActor (ia : ℕ × Actor) : List Tok :=
  .n ia.1 ::
    (encBox ia.2.box ++
      ([.r ia.2.velocity.1, .r ia.2.velocity.2, .r ia.2.maxSpeed] ++ encKind ia.2.kind))

def decActor : List Tok → Option ((ℕ × Actor) × List Tok)
  | .n i :: rest =>
    match decBox rest with
    | some (b, rest1) =>
      match rest1 with
      | .r vx :: .r vy :: .r ms :: rest2 =>
        match decKind rest2 with
        | some (k, rest3) => some ((i, ⟨b, (vx, vy), ms, k⟩), rest3)
        | none => none
      | _ => none
    | none => none
  | _ => none

def encCamera (c : Camera) : List Tok :=
  encBox c.viewBox ++ [.n c.viewportSize.1, .n c.viewportSize.2]

/-- Schema version stamped into every save file (spec section 4.6). -/
def SAVE_VERSION : ℕ := 1

/-- Modelled from the spec: `save` (spec section 4.6): a structured
snapshot of the field, all actors with identifiers, and the camera view
configuration, stamped with the schema version. -/
def save (s : Scene) (cam : Camera) : List Tok :=
  .n SAVE_VERSION :: .n s.nextId :: .n s.field.cells.length ::
    (encListBody encCell s.field.cells ++
      (.n s.actors.length :: (encListBody encActor s.actors ++ encCamera cam)))

/-- Modelled from the spec: `load` (spec section 4.6): rejects an
incompatible schema version with `IncompatibleSaveVersion`, any other
malformed stream with a decode error, and otherwise reconstructs the
scene and camera. -/
def load (ts : List Tok) : Except ScarabError (Scene × Camera) :=
  match ts with
  | .n ver :: rest =>
    if ver = SAVE_VERSION then
      match rest with
      | .n nid :: .n ncells :: rest1 =>
        match decListBody decCell ncells rest1 with
        | some (cells, rest2) =>
          match rest2 with
          | .n nactors :: rest3 =>
            match decListBody decActor nactors rest3 with
            | some (actors, rest4) =>
              match decBox rest4 with
              | some (vb, rest5) =>
                match rest5 with
                | [.n w, .n h] => .ok (⟨⟨cells⟩, actors, nid⟩, ⟨vb, (w, h)⟩)
                | _ => .error .ioOrDecodeError
              | none => .error .ioOrDecodeError
            | none => .error .ioOrDecodeError
          | _ => .error .ioOrDecodeError
        | none => .error .ioOrDecodeError
      | _ => .error .ioOrDecodeError
    else .error .incompatibleSaveVersion
  | _ => .error .ioOrDecodeError

/-! ### Basic geometry lemmas -/

theorem intersects_comm {a b : PhysBox} : a.intersects b ↔ b.intersects a := by
  unfold PhysBox.intersects
  constructor <;> rintro ⟨h1, h2, h3, h4⟩ <;> exact ⟨h2, h1, h4, h3⟩

theorem intersects_mono {i o c : PhysBox} (hw : within i o) (h : c.intersects i) :
    c.intersects o := by
  obtain ⟨w1, w2, w3, w4⟩ := hw
  obtain ⟨h1, h2, h3, h4⟩ := h
  exact ⟨by linarith, by linarith, by linarith, by linarith⟩

theorem translate_minX (b : PhysBox) (u w : ℝ) : (b.translate (u, w)).minX = b.minX + u := rfl

theorem translate_maxX (b : PhysBox) (u w : ℝ) : (b.translate (u, w)).maxX = b.maxX + u := by
  unfold PhysBox.translate PhysBox.maxX
  dsimp only
  ring

theorem translate_minY (b : PhysBox) (u w : ℝ) : (b.translate (u, w)).minY = b.minY + w := rfl

theorem translate_maxY (b : PhysBox) (u w : ℝ) : (b.translate (u, w)).maxY = b.maxY + w := by
  unfold PhysBox.translate PhysBox.maxY
  dsimp only
  ring

theorem translate_zero (b : PhysBox) : b.translate (0, 0) = b := by
  obtain ⟨⟨p1, p2⟩, sz⟩ := b
  simp [PhysBox.translate]

/-! ### Claims C7, C8, C9, C10: construction and mutation contracts -/

/-- C7: building a `Field` from an empty cell list fails with
`EmptyField`, and building a box fails with `InvalidGeometry` whenever
either size component is non-positive, in particular for size
`(0, 10)`.  Both failures are ordinary returned errors (total `Except`
functions), never panics. -/
theorem construction_failure_cases :
    Field.new [] = .error .emptyField ∧
    (∀ x y w h : ℝ, w ≤ 0 ∨ h ≤ 0 → PhysBox.new x y w h = .error .invalidGeometry) ∧
    PhysBox.new 0 0 0 10 = .error .invalidGeometry := by
  have hgen : ∀ x y w h : ℝ, w ≤ 0 ∨ h ≤ 0 → PhysBox.new x y w h = .error .invalidGeometry := by
    intro x y w h hwh
    have hn : ¬ (0 < w ∧ 0 < h) := by
      rintro ⟨hw, hh⟩
      rcases hwh with h1 | h1 <;> linarith
    unfold PhysBox.new
    rw [if_neg hn]
  exact ⟨rfl, hgen, hgen 0 0 0 10 (Or.inl le_rfl)⟩

/-- Witness for C7 at the concrete inputs `[]` and size `(-3, 5)`. -/
theorem construction_failure_cases_witness :
    Field.new [] = .error .emptyField ∧
    PhysBox.new 1 2 (-3) 5 = .error .invalidGeometry :=
  ⟨construction_failure_cases.1,
   construction_failure_cases.2.1 1 2 (-3) 5 (Or.inl (by norm_num))⟩

/-- C8: `Camera::new` fails with `InvalidViewport` whenever either
viewport component is not strictly positive, and succeeds (with the
given view box and viewport size) otherwise. -/
theorem Camera.new_validation (vb : PhysBox) (w h : ℕ) :
    (¬ (0 < w ∧ 0 < h) → Camera.new vb (w, h) = .error .invalidViewport) ∧
    (0 < w ∧ 0 < h → Camera.new vb (w, h) = .ok ⟨vb, (w, h)⟩) := by
  constructor
  · intro hn
    unfold Camera.new
    rw [if_neg hn]
  · intro hp
    unfold Camera.new
    rw [if_pos hp]

/-- Witness for C8: viewport `(0, 5)` is rejected and viewport
`(640, 360)` is accepted. -/
theorem Camera.new_validation_witness :
    Camera.new ⟨(0, 0), (640, 360)⟩ (0, 5) = .error .invalidViewport ∧
    Camera.new ⟨(0, 0), (640, 360)⟩ (640, 360) =
      .ok ⟨⟨(0, 0), (640, 360)⟩, (640, 360)⟩ :=
  ⟨(Camera.new_validation ⟨(0, 0), (640, 360)⟩ 0 5).1 (by decide),
   (Camera.new_validation ⟨(0, 0), (640, 360)⟩ 640 360).2 (by decide)⟩

/-- C9: `Cell::new` is total: it pairs any solidity tag with any
already constructed box and returns the cell directly, with no error
path (its result type is `Cell`, not a fallible result). -/
theorem Cell.new_total (s : Solidity) (b : PhysBox) :
    (Cell.new s b).solidity = s ∧ (Cell.new s b).box = b :=
  ⟨rfl, rfl⟩

/-- C10: on a box, `set_pos` is total and accepts every position value
(the updated box carries exactly the requested position and the old
size), while `set_size` is fallible and succeeds exactly when both new
size components are strictly positive: the validity invariant
constrains only the size. -/
theorem setPos_total_setSize_fallible :
    (∀ (b : PhysBox) (p : ℝ × ℝ), (b.setPos p).pos = p ∧ (b.setPos p).size = b.size) ∧
    (∀ (b : PhysBox) (s : ℝ × ℝ),
      (∃ b1, b.setSize s = .ok b1) ↔ 0 < s.1 ∧ 0 < s.2) := by
  constructor
  · intro b p
    exact ⟨rfl, rfl⟩
  · intro b s
    unfold PhysBox.setSize
    by_cases hs : 0 < s.1 ∧ 0 < s.2
    · rw [if_pos hs]
      simp [hs]
    · rw [if_neg hs]
      simp [hs]

/-- Witness for C10: position `(-10, -20)` is accepted unconditionally
and size `(3, 4)` is accepted by `set_size`. -/
theorem setPos_total_setSize_fallible_witness :
    (PhysBox.setPos ⟨(0, 0), (5, 5)⟩ (-10, -20)).pos = (-10, -20) ∧
    ∃ b1, PhysBox.setSize ⟨(0, 0), (5, 5)⟩ (3, 4) = .ok b1 :=
  ⟨(setPos_total_setSize_fallible.1 ⟨(0, 0), (5, 5)⟩ (-10, -20)).1,
   (setPos_total_setSize_fallible.2 ⟨(0, 0), (5, 5)⟩ (3, 4)).mpr (by norm_num)⟩

/-! ### Claim C4: camera projection round trip -/

/-- C4: for every camera whose viewport and view box dimensions are
positive (the constructor invariants) and every world point,
`screen_to_world` inverts `world_to_screen` exactly; no resize or view
change happens between the two calls since both read the same camera
value.  The spec's "within floating-point rounding" is exact in the
real-number idealisation. -/
theorem Camera.screenToWorld_worldToScreen (c : Camera)
    (h1 : 0 < c.viewportSize.1) (h2 : 0 < c.viewportSize.2)
    (h3 : 0 < c.viewBox.size.1) (h4 : 0 < c.viewBox.size.2) (p : ℝ × ℝ) :
    c.screenToWorld (c.worldToScreen p) = p := by
  have hx : c.scaleX ≠ 0 := by
    unfold Camera.scaleX
    exact div_ne_zero (Nat.cast_ne_zero.mpr h1.ne') h3.ne'
  have hy : c.scaleY ≠ 0 := by
    unfold Camera.scaleY
    exact div_ne_zero (Nat.cast_ne_zero.mpr h2.ne') h4.ne'
  unfold Camera.screenToWorld Camera.worldToScreen
  dsimp only
  rw [Prod.ext_iff]
  constructor <;> dsimp only
  · field_simp
  · field_simp

/-- Witness for C4 at a 640 by 360 camera and the point `(123, 45)`. -/
theorem Camera.screenToWorld_worldToScreen_witness :
    (Camera.mk ⟨(0, 0), (640, 360)⟩ (640, 360)).screenToWorld
      ((Camera.mk ⟨(0, 0), (640, 360)⟩ (640, 360)).worldToScreen (123, 45)) = (123, 45) :=
  Camera.screenToWorld_worldToScreen (Camera.mk ⟨(0, 0), (640, 360)⟩ (640, 360))
    (by decide) (by decide)
    (show (0 : ℝ) < 640 by norm_num) (show (0 : ℝ) < 360 by norm_num) (123, 45)

/-! ### Claim C2: speed limit invariant -/

theorem mag_nonneg (v : ℝ × ℝ) : 0 ≤ mag v := Real.sqrt_nonneg _

theorem mag_scale (k : ℝ) (v : ℝ × ℝ) : mag (k * v.1, k * v.2) = |k| * mag v := by
  unfold mag
  dsimp only
  rw [show (k * v.1) ^ 2 + (k * v.2) ^ 2 = k ^ 2 * (v.1 ^ 2 + v.2 ^ 2) by ring,
    Real.sqrt_mul (sq_nonneg k), Real.sqrt_sq_eq_abs]

theorem mag_clampVelocity_le (v : ℝ × ℝ) (m : ℝ) (hm : 0 ≤ m) :
    mag (clampVelocity v m) ≤ m := by
  unfold clampVelocity
  by_cases h : mag v ≤ m
  · rwa [if_pos h]
  · rw [if_neg h]
    have hv : 0 < mag v := lt_of_le_of_lt hm (not_le.mp h)
    rw [mag_scale, abs_of_nonneg (div_nonneg hm hv.le), div_mul_cancel₀ m hv.ne']

theorem clampVelocity_scales (v : ℝ × ℝ) (m : ℝ) (hm : 0 ≤ m) :
    ∃ k, 0 ≤ k ∧ k ≤ 1 ∧ clampVelocity v m = (k * v.1, k * v.2) := by
  unfold clampVelocity
  by_cases h : mag v ≤ m
  · refine ⟨1, zero_le_one, le_refl 1, ?_⟩
    rw [if_pos h]
    simp
  · have hv : 0 < mag v := lt_of_le_of_lt hm (not_le.mp h)
    refine ⟨m / mag v, div_nonneg hm hv.le, ?_, by rw [if_neg h]⟩
    rw [div_le_one hv]
    exact (not_le.mp h).le

theorem mag_le_of_sq_le {w v : ℝ × ℝ} (h1 : w.1 ^ 2 ≤ v.1 ^ 2) (h2 : w.2 ^ 2 ≤ v.2 ^ 2) :
    mag w ≤ mag v :=
  Real.sqrt_le_sqrt (add_le_add h1 h2)

theorem mag_resolveMove_le (f : Field) (b : PhysBox) (v : ℝ × ℝ) (dt : ℝ) :
    mag (resolveMove f b v dt).2 ≤ mag v := by
  unfold resolveMove
  dsimp only
  apply mag_le_of_sq_le <;> dsimp only <;> split
  · exact le_refl _
  · simpa using sq_nonneg v.1
  · exact le_refl _
  · simpa using sq_nonneg v.2

/-- C2: after `Scene::update(dt)`, every actor whose maximum speed is
non-negative (the construction invariant of spec section 3) has a
velocity of Euclidean magnitude at most its maximum speed; moreover the
resolver's clamp only rescales the velocity by a factor between 0 and
1, never changing its direction. -/
theorem Scene.update_speed_limit (s : Scene) (dt : ℝ)
    (hm : ∀ ia ∈ s.actors, 0 ≤ ia.2.maxSpeed) :
    (∀ ia ∈ (s.update dt).actors, mag ia.2.velocity ≤ ia.2.maxSpeed) ∧
    (∀ (v : ℝ × ℝ) (m : ℝ), 0 ≤ m →
      ∃ k, 0 ≤ k ∧ k ≤ 1 ∧ clampVelocity v m = (k * v.1, k * v.2)) := by
  constructor
  · intro ia hia
    unfold Scene.update at hia
    dsimp only at hia
    obtain ⟨ja, hja, rfl⟩ := List.mem_map.mp hia
    have hms : 0 ≤ ja.2.maxSpeed := hm ja hja
    show mag (Actor.update s.field ja.2 dt).velocity ≤ (Actor.update s.field ja.2 dt).maxSpeed
    unfold Actor.update
    dsimp only
    exact le_trans (mag_resolveMove_le _ _ _ _) (mag_clampVelocity_le _ _ hms)
  · intro v m hm0
    exact clampVelocity_scales v m hm0

/-- Witness for C2 on a one-actor scene with maximum speed 5. -/
theorem Scene.update_speed_limit_witness :
    (∀ ia ∈ (Scene.update ⟨⟨[]⟩, [(0, ⟨⟨(0, 0), (1, 1)⟩, (3, 4), 5, .enemy⟩)], 1⟩ 1).actors,
      mag ia.2.velocity ≤ ia.2.maxSpeed) ∧
    (∀ (v : ℝ × ℝ) (m : ℝ), 0 ≤ m →
      ∃ k, 0 ≤ k ∧ k ≤ 1 ∧ clampVelocity v m = (k * v.1, k * v.2)) :=
  Scene.update_speed_limit ⟨⟨[]⟩, [(0, ⟨⟨(0, 0), (1, 1)⟩, (3, 4), 5, .enemy⟩)], 1⟩ 1
    (by
      rintro ia hia
      rw [List.mem_singleton] at hia
      subst hia
      exact show (0 : ℝ) ≤ 5 by norm_num)

/-! ### Claim C1: no-tunneling invariant -/

theorem mem_solidCellsOverlapping {f : Field} {q : PhysBox} {c : Cell} :
    c ∈ f.solidCellsOverlapping q ↔
      c ∈ f.cells ∧ c.solidity = Solidity.solid ∧ c.box.intersects q := by
  unfold Field.solidCellsOverlapping
  rw [List.mem_filter, decide_eq_true_eq]

theorem foldr_min_le_init (g : Cell → ℝ) (init : ℝ) (L : List Cell) :
    L.foldr (fun c acc => min (g c) acc) init ≤ init := by
  induction L with
  | nil => exact le_refl _
  | cons c t ih => exact le_trans (min_le_right _ _) ih

theorem foldr_min_le_mem (g : Cell → ℝ) (init : ℝ) {L : List Cell} {c : Cell}
    (hc : c ∈ L) :
    L.foldr (fun d acc => min (g d) acc) init ≤ g c := by
  induction L with
  | nil => cases hc
  | cons x t ih =>
    rcases List.mem_cons.mp hc with rfl | hmem
    · exact min_le_left _ _
    · exact le_trans (min_le_right _ _) (ih hmem)

theorem le_foldr_min (g : Cell → ℝ) (init : ℝ) {L : List Cell} {x : ℝ}
    (hi : x ≤ init) (hg : ∀ c ∈ L, x ≤ g c) :
    x ≤ L.foldr (fun d acc => min (g d) acc) init := by
  induction L with
  | nil => exact hi
  | cons c t ih =>
    exact le_min (hg c (List.mem_cons_self c t))
      (ih fun d hd => hg d (List.mem_cons_of_mem _ hd))

theorem init_le_foldr_max (g : Cell → ℝ) (init : ℝ) (L : List Cell) :
    init ≤ L.foldr (fun c acc => max (g c) acc) init := by
  induction L with
  | nil => exact le_refl _
  | cons c t ih => exact le_trans ih (le_max_right _ _)

theorem mem_le_foldr_max (g : Cell → ℝ) (init : ℝ) {L : List Cell} {c : Cell}
    (hc : c ∈ L) :
    g c ≤ L.foldr (fun d acc => max (g d) acc) init := by
  induction L with
  | nil => cases hc
  | cons x t ih =>
    rcases List.mem_cons.mp hc with rfl | hmem
    · exact le_max_left _ _
    · exact le_trans (ih hmem) (le_max_right _ _)

theorem foldr_max_le (g : Cell → ℝ) (init : ℝ) {L : List Cell} {x : ℝ}
    (hi : init ≤ x) (hg : ∀ c ∈ L, g c ≤ x) :
    L.foldr (fun d acc => max (g d) acc) init ≤ x := by
  induction L with
  | nil => exact hi
  | cons c t ih =>
    exact max_le (hg c (List.mem_cons_self c t))
      (ih fun d hd => hg d (List.mem_cons_of_mem _ hd))

theorem sweptX_bounds_pos (b : PhysBox) {dx : ℝ} (hdx : 0 < dx) :
    (sweptX b dx).minX = b.minX ∧ (sweptX b dx).maxX = b.maxX + dx ∧
    (sweptX b dx).minY = b.minY ∧ (sweptX b dx).maxY = b.maxY := by
  unfold sweptX PhysBox.minX PhysBox.maxX PhysBox.minY PhysBox.maxY
  dsimp only
  rw [abs_of_pos hdx, min_eq_left (by linarith : b.pos.1 ≤ b.pos.1 + dx)]
  exact ⟨rfl, by ring, rfl, rfl⟩

theorem sweptX_bounds_neg (b : PhysBox) {dx : ℝ} (hdx : dx < 0) :
    (sweptX b dx).minX = b.minX + dx ∧ (sweptX b dx).maxX = b.maxX ∧
    (sweptX b dx).minY = b.minY ∧ (sweptX b dx).maxY = b.maxY := by
  unfold sweptX PhysBox.minX PhysBox.maxX PhysBox.minY PhysBox.maxY
  dsimp only
  rw [abs_of_neg hdx, min_eq_right (by linarith : b.pos.1 + dx ≤ b.pos.1)]
  exact ⟨rfl, by ring, rfl, rfl⟩

theorem resolveAxisX_zero (f : Field) (b : PhysBox) : resolveAxisX f b 0 = 0 := by
  unfold resolveAxisX
  rw [if_pos rfl]

theorem resolveAxisX_eq_pos {f : Field} {b : PhysBox} {dx : ℝ} (hdx : 0 < dx) :
    resolveAxisX f b dx = (f.solidCellsOverlapping (sweptX b dx)).foldr
      (fun d acc => min (allowX b d.box dx) acc) dx := by
  unfold resolveAxisX
  rw [if_neg hdx.ne']
  dsimp only
  rw [if_pos hdx]

theorem resolveAxisX_eq_neg {f : Field} {b : PhysBox} {dx : ℝ} (hdx : dx < 0) :
    resolveAxisX f b dx = (f.solidCellsOverlapping (sweptX b dx)).foldr
      (fun d acc => max (allowX b d.box dx) acc) dx := by
  unfold resolveAxisX
  rw [if_neg hdx.ne]
  dsimp only
  rw [if_neg (by linarith : ¬ 0 < dx)]

theorem blocking_ahead {f : Field} {b : PhysBox} {dx : ℝ} (hdx : 0 < dx)
    (hclear : ∀ c ∈ f.cells, c.solidity = Solidity.solid → ¬ b.intersects c.box)
    {c : Cell} (hc : c ∈ f.solidCellsOverlapping (sweptX b dx)) :
    b.maxX ≤ c.box.minX := by
  obtain ⟨hmem, hsol, hint⟩ := mem_solidCellsOverlapping.mp hc
  obtain ⟨s1, s2, s3, s4⟩ := sweptX_bounds_pos b hdx
  obtain ⟨h1, h2, h3, h4⟩ := hint
  rw [s2] at h1
  rw [s1] at h2
  rw [s4] at h3
  rw [s3] at h4
  by_contra hcon
  exact hclear c hmem hsol ⟨h2, not_le.mp hcon, h4, h3⟩

theorem blocking_behind {f : Field} {b : PhysBox} {dx : ℝ} (hdx : dx < 0)
    (hclear : ∀ c ∈ f.cells, c.solidity = Solidity.solid → ¬ b.intersects c.box)
    {c : Cell} (hc : c ∈ f.solidCellsOverlapping (sweptX b dx)) :
    c.box.maxX ≤ b.minX := by
  obtain ⟨hmem, hsol, hint⟩ := mem_solidCellsOverlapping.mp hc
  obtain ⟨s1, s2, s3, s4⟩ := sweptX_bounds_neg b hdx
  obtain ⟨h1, h2, h3, h4⟩ := hint
  rw [s2] at h1
  rw [s1] at h2
  rw [s4] at h3
  rw [s3] at h4
  by_contra hcon
  exact hclear c hmem hsol ⟨not_le.mp hcon, h1, h4, h3⟩

theorem allowX_ahead {b cb : PhysBox} {dx : ℝ} (hdx : 0 < dx) (hle : b.maxX ≤ cb.minX) :
    allowX b cb dx = cb.minX - b.maxX := by
  unfold allowX
  rw [if_pos hdx, if_pos hle]

theorem allowX_behind {b cb : PhysBox} {dx : ℝ} (hdx : dx < 0) (hle : cb.maxX ≤ b.minX) :
    allowX b cb dx = cb.maxX - b.minX := by
  unfold allowX
  rw [if_neg (by linarith : ¬ 0 < dx), if_pos hle]

theorem resolveAxisX_clear {f : Field} {b : PhysBox} (dx : ℝ)
    (hclear : ∀ c ∈ f.cells, c.solidity = Solidity.solid → ¬ b.intersects c.box) :
    ∀ c ∈ f.cells, c.solidity = Solidity.solid →
      ¬ (b.translate (resolveAxisX f b dx, 0)).intersects c.box := by
  intro c hmem hsol
  rcases lt_trichotomy dx 0 with hneg | hz | hpos
  · rw [resolveAxisX_eq_neg hneg]
    set L := f.solidCellsOverlapping (sweptX b dx) with hL
    set r := L.foldr (fun d acc => max (allowX b d.box dx) acc) dx with hr
    have hub : r ≤ 0 := by
      rw [hr]
      apply foldr_max_le
      · linarith
      · intro d hd
        have hbc := blocking_behind hneg hclear (hL ▸ hd)
        rw [allowX_behind hneg hbc]
        linarith
    have hlb : dx ≤ r := by
      rw [hr]
      exact init_le_foldr_max _ _ _
    by_cases hbl : c ∈ L
    · have hbc := blocking_behind hneg hclear (hL ▸ hbl)
      have hrc : allowX b c.box dx ≤ r := by
        rw [hr]
        exact mem_le_foldr_max (fun d => allowX b d.box dx) dx hbl
      rw [allowX_behind hneg hbc] at hrc
      rintro ⟨k1, k2, k3, k4⟩
      rw [translate_minX] at k1
      linarith
    · have hnint : ¬ c.box.intersects (sweptX b dx) := fun hI =>
        hbl (hL ▸ mem_solidCellsOverlapping.mpr ⟨hmem, hsol, hI⟩)
      intro hint
      apply hnint
      apply intersects_mono ?_ (intersects_comm.mp hint)
      obtain ⟨s1, s2, s3, s4⟩ := sweptX_bounds_neg b hneg
      refine ⟨?_, ?_, ?_, ?_⟩
      · rw [s1, translate_minX]
        linarith
      · rw [s2, translate_maxX]
        linarith
      · rw [s3, translate_minY]
        linarith
      · rw [s4, translate_maxY]
        linarith
  · rw [hz, resolveAxisX_zero, translate_zero]
    exact hclear c hmem hsol
  · rw [resolveAxisX_eq_pos hpos]
    set L := f.solidCellsOverlapping (sweptX b dx) with hL
    set r := L.foldr (fun d acc => min (allowX b d.box dx) acc) dx with hr
    have hlb : 0 ≤ r := by
      rw [hr]
      apply le_foldr_min
      · linarith
      · intro d hd
        have hbc := blocking_ahead hpos hclear (hL ▸ hd)
        rw [allowX_ahead hpos hbc]
        linarith
    have hub : r ≤ dx := by
      rw [hr]
      exact foldr_min_le_init _ _ _
    by_cases hbl : c ∈ L
    · have hbc := blocking_ahead hpos hclear (hL ▸ hbl)
      have hrc : r ≤ allowX b c.box dx := by
        rw [hr]
        exact foldr_min_le_mem (fun d => allowX b d.box dx) dx hbl
      rw [allowX_ahead hpos hbc] at hrc
      rintro ⟨k1, k2, k3, k4⟩
      rw [translate_maxX] at k2
      linarith
    · have hnint : ¬ c.box.intersects (sweptX b dx) := fun hI =>
        hbl (hL ▸ mem_solidCellsOverlapping.mpr ⟨hmem, hsol, hI⟩)
      intro hint
      apply hnint
      apply intersects_mono ?_ (intersects_comm.mp hint)
      obtain ⟨s1, s2, s3, s4⟩ := sweptX_bounds_pos b hpos
      refine ⟨?_, ?_, ?_, ?_⟩
      · rw [s1, translate_minX]
        linarith
      · rw [s2, translate_maxX]
        linarith
      · rw [s3, translate_minY]
        linarith
      · rw [s4, translate_maxY]
        linarith

theorem transpose_intersects {a b : PhysBox} :
    a.transpose.intersects b.transpose ↔ a.intersects b := by
  unfold PhysBox.transpose PhysBox.intersects PhysBox.minX PhysBox.maxX PhysBox.minY
    PhysBox.maxY
  dsimp only
  tauto

theorem transpose_translate (b : PhysBox) (u : ℝ) :
    (b.translate (0, u)).transpose = b.transpose.translate (u, 0) := rfl

theorem resolveAxisY_clear {f : Field} {b : PhysBox} (dy : ℝ)
    (hclear : ∀ c ∈ f.cells, c.solidity = Solidity.solid → ¬ b.intersects c.box) :
    ∀ c ∈ f.cells, c.solidity = Solidity.solid →
      ¬ (b.translate (0, resolveAxisY f b dy)).intersects c.box := by
  have hclearT : ∀ c ∈ f.transpose.cells, c.solidity = Solidity.solid →
      ¬ b.transpose.intersects c.box := by
    intro c hmem hsol
    obtain ⟨d, hd, rfl⟩ := List.mem_map.mp hmem
    rw [show (Cell.transpose d).box = d.box.transpose from rfl, transpose_intersects]
    exact hclear d hd hsol
  intro c hmem hsol hint
  have hT := resolveAxisX_clear (f := f.transpose) (b := b.transpose) dy hclearT
    (Cell.transpose c) (List.mem_map_of_mem _ hmem) hsol
  apply hT
  rw [show resolveAxisX f.transpose b.transpose dy = resolveAxisY f b dy from rfl,
    ← transpose_translate]
  exact transpose_intersects.mpr hint

theorem resolveMove_clear {f : Field} {b : PhysBox} (v : ℝ × ℝ) (dt : ℝ)
    (hclear : ∀ c ∈ f.cells, c.solidity = Solidity.solid → ¬ b.intersects c.box) :
    ∀ c ∈ f.cells, c.solidity = Solidity.solid →
      ¬ (resolveMove f b v dt).1.intersects c.box := by
  intro c hmem hsol
  have h1 := resolveAxisX_clear (f := f) (b := b) (v.1 * dt) hclear
  have h2 := resolveAxisY_clear (f := f)
    (b := b.translate (resolveAxisX f b (v.1 * dt), 0)) (v.2 * dt) h1
  exact h2 c hmem hsol

/-- C1: an actor that does not intersect any solid cell at the start of
a tick is still registered (under its identifier, with its resolved
state) after `Scene::update(dt)`, and its resolved box intersects no
solid cell of the field. -/
theorem Scene.update_no_tunneling (s : Scene) (dt : ℝ) (ia : ℕ × Actor)
    (hmem : ia ∈ s.actors)
    (hstart : ∀ c ∈ s.field.cells, c.solidity = Solidity.solid →
      ¬ ia.2.box.intersects c.box) :
    (ia.1, Actor.update s.field ia.2 dt) ∈ (s.update dt).actors ∧
    ∀ c ∈ (s.update dt).field.cells, c.solidity = Solidity.solid →
      ¬ (Actor.update s.field ia.2 dt).box.intersects c.box := by
  constructor
  · unfold Scene.update
    dsimp only
    exact List.mem_map_of_mem _ hmem
  · intro c hmem2 hsol
    exact resolveMove_clear _ _ hstart c hmem2 hsol

/-- Witness for C1: a one-cell field with a solid block at
`[0,0,50,100]` and an actor at `[200,200,20,20]` moving left. -/
theorem Scene.update_no_tunneling_witness :
    ((0 : ℕ), Actor.update ⟨[⟨Solidity.solid, ⟨(0, 0), (50, 100)⟩⟩]⟩
        ⟨⟨(200, 200), (20, 20)⟩, (-400, 0), 500, .enemy⟩ 1) ∈
      (Scene.update ⟨⟨[⟨Solidity.solid, ⟨(0, 0), (50, 100)⟩⟩]⟩,
        [(0, ⟨⟨(200, 200), (20, 20)⟩, (-400, 0), 500, .enemy⟩)], 1⟩ 1).actors ∧
    ∀ c ∈ (Scene.update ⟨⟨[⟨Solidity.solid, ⟨(0, 0), (50, 100)⟩⟩]⟩,
        [(0, ⟨⟨(200, 200), (20, 20)⟩, (-400, 0), 500, .enemy⟩)], 1⟩ 1).field.cells,
      c.solidity = Solidity.solid →
      ¬ (Actor.update ⟨[⟨Solidity.solid, ⟨(0, 0), (50, 100)⟩⟩]⟩
          ⟨⟨(200, 200), (20, 20)⟩, (-400, 0), 500, .enemy⟩ 1).box.intersects c.box :=
  Scene.update_no_tunneling
    ⟨⟨[⟨Solidity.solid, ⟨(0, 0), (50, 100)⟩⟩]⟩,
      [(0, ⟨⟨(200, 200), (20, 20)⟩, (-400, 0), 500, .enemy⟩)], 1⟩ 1
    (0, ⟨⟨(200, 200), (20, 20)⟩, (-400, 0), 500, .enemy⟩)
    (List.mem_singleton.mpr rfl)
    (by
      rintro c hc hsol
      rw [List.mem_singleton] at hc
      subst hc
      rintro ⟨k1, k2, k3, k4⟩
      norm_num [PhysBox.minX, PhysBox.maxX] at k1)

/-! ### Claims C5 and C6: worked clamp example and axis-separated sliding -/

theorem sweptX_transpose (b : PhysBox) (d : ℝ) :
    sweptX b.transpose d = (sweptY b d).transpose := rfl

theorem resolveAxisY_zero (f : Field) (b : PhysBox) : resolveAxisY f b 0 = 0 :=
  resolveAxisX_zero f.transpose b.transpose

theorem resolveAxisY_free {f : Field} {b : PhysBox} (dy : ℝ)
    (hfree : ∀ c ∈ f.cells, c.solidity = Solidity.solid →
      ¬ c.box.intersects (sweptY b dy)) :
    resolveAxisY f b dy = dy := by
  have hempty : f.transpose.solidCellsOverlapping (sweptX b.transpose dy) = [] := by
    unfold Field.solidCellsOverlapping
    rw [List.filter_eq_nil_iff]
    intro c hmem
    simp only [decide_eq_true_eq]
    rintro ⟨hsol, hint⟩
    obtain ⟨d, hd, rfl⟩ := List.mem_map.mp hmem
    rw [show (Cell.transpose d).box = d.box.transpose from rfl, sweptX_transpose,
      transpose_intersects] at hint
    exact hfree d hd hsol hint
  rcases eq_or_ne dy 0 with rfl | hdy
  · exact resolveAxisX_zero f.transpose b.transpose
  · rcases lt_or_gt_of_ne hdy with hneg | hpos
    · show resolveAxisX f.transpose b.transpose dy = dy
      rw [resolveAxisX_eq_neg hneg, hempty, List.foldr_nil]
    · show resolveAxisX f.transpose b.transpose dy = dy
      rw [resolveAxisX_eq_pos hpos, hempty, List.foldr_nil]

/-- C6: an actor moving diagonally (both axis displacements nonzero)
whose x displacement is clamped by a solid wall, while the y extent
swept from the x-resolved position meets no solid cell, slides along
the wall: the y displacement is applied in full on top of the clamped x
displacement, the residual x velocity is zeroed for the tick and the y
velocity is kept. -/
theorem resolveMove_slides (f : Field) (b : PhysBox) (v : ℝ × ℝ) (dt : ℝ)
    (hdy : v.2 * dt ≠ 0)
    (hblock : resolveAxisX f b (v.1 * dt) ≠ v.1 * dt)
    (hfree : ∀ c ∈ f.cells, c.solidity = Solidity.solid →
      ¬ c.box.intersects
        (sweptY (b.translate (resolveAxisX f b (v.1 * dt), 0)) (v.2 * dt))) :
    (resolveMove f b v dt).1 =
      (b.translate (resolveAxisX f b (v.1 * dt), 0)).translate (0, v.2 * dt) ∧
    (resolveMove f b v dt).2 = (0, v.2) := by
  have hry : resolveAxisY f (b.translate (resolveAxisX f b (v.1 * dt), 0)) (v.2 * dt)
      = v.2 * dt := resolveAxisY_free _ hfree
  constructor
  · show (b.translate (resolveAxisX f b (v.1 * dt), 0)).translate
      (0, resolveAxisY f (b.translate (resolveAxisX f b (v.1 * dt), 0)) (v.2 * dt)) = _
    rw [hry]
  · show (if resolveAxisX f b (v.1 * dt) = v.1 * dt then v.1 else 0,
      if resolveAxisY f (b.translate (resolveAxisX f b (v.1 * dt), 0)) (v.2 * dt)
          = v.2 * dt then v.2 else 0) = (0, v.2)
    rw [if_neg hblock, if_pos hry]

/-- Witness for C6: a solid wall `[70,0,10,200]` ahead on x only, the
actor `[40,40,20,20]` moving with velocity `(50, 30)` for one tick:
x is clamped (to 10, flush against the wall), y travels the full 30,
and the residual velocity is `(0, 30)`. -/
theorem resolveMove_slides_witness :
    (resolveMove ⟨[⟨Solidity.solid, ⟨(70, 0), (10, 200)⟩⟩]⟩ ⟨(40, 40), (20, 20)⟩
        (50, 30) 1).1 =
      ((⟨(40, 40), (20, 20)⟩ : PhysBox).translate
        (resolveAxisX ⟨[⟨Solidity.solid, ⟨(70, 0), (10, 200)⟩⟩]⟩ ⟨(40, 40), (20, 20)⟩
          ((50, 30).1 * 1), 0)).translate (0, (50, 30).2 * 1) ∧
    (resolveMove ⟨[⟨Solidity.solid, ⟨(70, 0), (10, 200)⟩⟩]⟩ ⟨(40, 40), (20, 20)⟩
        (50, 30) 1).2 = (0, (50, 30).2) :=
  resolveMove_slides ⟨[⟨Solidity.solid, ⟨(70, 0), (10, 200)⟩⟩]⟩ ⟨(40, 40), (20, 20)⟩
    (50, 30) 1
    (by norm_num)
    (by
      have hval : resolveAxisX ⟨[⟨Solidity.solid, ⟨(70, 0), (10, 200)⟩⟩]⟩
          ⟨(40, 40), (20, 20)⟩ ((50, 30).1 * 1) = 10 := by
        norm_num [resolveAxisX, Field.solidCellsOverlapping, sweptX, allowX,
          PhysBox.intersects, PhysBox.minX, PhysBox.maxX, PhysBox.minY, PhysBox.maxY,
          List.filter, List.foldr, min_def, abs_of_nonneg, decide_eq_true_eq]
      rw [hval]
      norm_num)
    (by
      have hval : resolveAxisX ⟨[⟨Solidity.solid, ⟨(70, 0), (10, 200)⟩⟩]⟩
          ⟨(40, 40), (20, 20)⟩ ((50, 30).1 * 1) = 10 := by
        norm_num [resolveAxisX, Field.solidCellsOverlapping, sweptX, allowX,
          PhysBox.intersects, PhysBox.minX, PhysBox.maxX, PhysBox.minY, PhysBox.maxY,
          List.filter, List.foldr, min_def, abs_of_nonneg, decide_eq_true_eq]
      rw [hval]
      rintro c hc hsol
      rw [List.mem_singleton] at hc
      subst hc
      rintro ⟨k1, k2, k3, k4⟩
      norm_num [sweptY, PhysBox.translate, PhysBox.minX, PhysBox.maxX, min_def] at k1)

/-- C5: with the solid cell `[0,0,50,100]` and the actor box
`[40,40,20,20]` moving with velocity `(50, 0)` for `dt = 1`, the
resolver clamps the resolved x displacement to exactly 10, the distance
to the wall edge, rather than applying the full 50; the resolved box
sits flush at `(50, 40)`. -/
theorem resolve_clamps_to_wall_edge :
    resolveAxisX ⟨[⟨Solidity.solid, ⟨(0, 0), (50, 100)⟩⟩]⟩ ⟨(40, 40), (20, 20)⟩ (50 * 1)
      = 10 ∧
    (resolveMove ⟨[⟨Solidity.solid, ⟨(0, 0), (50, 100)⟩⟩]⟩ ⟨(40, 40), (20, 20)⟩
      (50, 0) 1).1.pos = (50, 40) := by
  have hx : resolveAxisX ⟨[⟨Solidity.solid, ⟨(0, 0), (50, 100)⟩⟩]⟩
      ⟨(40, 40), (20, 20)⟩ (50 * 1) = 10 := by
    norm_num [resolveAxisX, Field.solidCellsOverlapping, sweptX, allowX,
      PhysBox.intersects, PhysBox.minX, PhysBox.maxX, PhysBox.minY, PhysBox.maxY,
      List.filter, List.foldr, min_def, abs_of_nonneg, decide_eq_true_eq]
  refine ⟨hx, ?_⟩
  show (((PhysBox.mk (40, 40) (20, 20)).translate
      (resolveAxisX ⟨[⟨Solidity.solid, ⟨(0, 0), (50, 100)⟩⟩]⟩ ⟨(40, 40), (20, 20)⟩
        (50 * 1), 0)).translate
      (0, resolveAxisY ⟨[⟨Solidity.solid, ⟨(0, 0), (50, 100)⟩⟩]⟩
        ((PhysBox.mk (40, 40) (20, 20)).translate
          (resolveAxisX ⟨[⟨Solidity.solid, ⟨(0, 0), (50, 100)⟩⟩]⟩ ⟨(40, 40), (20, 20)⟩
            (50 * 1), 0)) (0 * 1))).pos = (50, 40)
  rw [hx, show (0 : ℝ) * 1 = 0 by norm_num, resolveAxisY_zero]
  norm_num [PhysBox.translate]

/-! ### Claim C3: persistence round trip -/

theorem decBox_encBox (b : PhysBox) (rest : List Tok) :
    decBox (encBox b ++ rest) = some (b, rest) := by
  obtain ⟨⟨p1, p2⟩, ⟨s1, s2⟩⟩ := b
  rfl

theorem decCell_encCell (c : Cell) (rest : List Tok) :
    decCell (encCell c ++ rest) = some (c, rest) := by
  obtain ⟨s, b⟩ := c
  simp [decCell, encCell, decBox_encBox]

theorem decKind_encKind (k : ActorKind) (rest : List Tok) :
    decKind (encKind k ++ rest) = some (k, rest) := by
  cases k <;> rfl

theorem decListBody_encListBody {α : Type} (enc : α → List Tok)
    (dec : List Tok → Option (α × List Tok))
    (hrt : ∀ x rest, dec (enc x ++ rest) = some (x, rest)) :
    ∀ (xs : List α) (rest : List Tok),
      decListBody dec xs.length (encListBody enc xs ++ rest) = some (xs, rest) := by
  intro xs
  induction xs with
  | nil => intro rest; rfl
  | cons x t ih =>
    intro rest
    show decListBody dec (t.length + 1) ((enc x ++ encListBody enc t) ++ rest) = _
    rw [List.append_assoc]
    simp [decListBody, hrt, ih]

theorem decActor_encActor (ia : ℕ × Actor) (rest : List Tok) :
    decActor (encActor ia ++ rest) = some (ia, rest) := by
  obtain ⟨i, a⟩ := ia
  obtain ⟨b, v, m, k⟩ := a
  obtain ⟨v1, v2⟩ := v
  simp [decActor, encActor, List.append_assoc, decBox_encBox, decKind_encKind]

/-- C3: loading a saved scene and camera always succeeds and
reconstructs them exactly: the same field cell list (hence cell count
and geometry), the same actor registry with identical identifiers,
boxes, velocities, maximum speeds and kind-specific state, the same
next identifier, and the same camera, so every later `update` or query
behaves identically. -/
theorem load_save_roundtrip (s : Scene) (cam : Camera) :
    load (save s cam) = .ok (s, cam) := by
  obtain ⟨⟨cells⟩, actors, nid⟩ := s
  obtain ⟨vb, ⟨w, h⟩⟩ := cam
  simp [load, save, SAVE_VERSION, encCamera, List.append_assoc,
    decListBody_encListBody encCell decCell decCell_encCell,
    decListBody_encListBody encActor decActor decActor_encActor,
    decBox_encBox]

end Scarab
